import Mathlib

/-!
Verification of the job-board backend (`job-backend`): a shallow embedding of
the HTTP controllers (`user.controller.js`, `company.controller.js`,
`job.controller.js`, `job_categories.controller.js`, the application
controller) and the Mongoose schemas, together with proofs of the spec's
testable properties.

Modelling conventions:
* A Mongo collection is a `List` of documents; `_id` values are strings.
* Each controller is a pure function `Store → ... → HResult` returning the
  HTTP response it sends plus the store after its writes.  The sequential
  await-chain of the JS code becomes sequential state threading.
* Mongoose casting semantics are embedded: `findById` / `$in` casting of a
  structurally invalid ObjectId string throws a `CastError`, which every
  controller catches and maps to a 500 response.
* `validator.escape` / `String.prototype.trim` / `toLowerCase` are embedded
  character-by-character (ASCII-faithful).
-/

/-- Whitespace recognized by JavaScript `String.prototype.trim`
(ASCII whitespace, NBSP, BOM, and the line/paragraph separators). -/
def isJsWhitespace (c : Char) : Bool :=
  let n := c.toNat
  n == 9 || n == 10 || n == 11 || n == 12 || n == 13 || n == 32 ||
  n == 160 || n == 0x2028 || n == 0x2029 || n == 0xFEFF

/-- Embedding of JavaScript `String.prototype.trim`: drop leading and
trailing whitespace. -/
def jsTrim (s : String) : String :=
  ⟨((s.data.dropWhile isJsWhitespace).reverse.dropWhile isJsWhitespace).reverse⟩

/-- Embedding of JavaScript `String.prototype.toLowerCase` (ASCII range,
which is what `Char.toLower` implements). -/
def asciiLower (s : String) : String :=
  ⟨s.data.map Char.toLower⟩

/-- The replacement `validator.escape` performs on a single character:
`&`, `"`, the apostrophe, `<`, `>`, `/`, the backslash and the backtick
become HTML entities, every other character is kept.  (The sequential
`.replace` chain of validator.js is equivalent to this character map
because no replacement string contains a character replaced later.) -/
def escapeChar (c : Char) : List Char :=
  if c = Char.ofNat 38 then "&amp;".data
  else if c = Char.ofNat 34 then "&quot;".data
  else if c = Char.ofNat 39 then "&#x27;".data
  else if c = Char.ofNat 60 then "&lt;".data
  else if c = Char.ofNat 62 then "&gt;".data
  else if c = Char.ofNat 47 then "&#x2F;".data
  else if c = Char.ofNat 92 then "&#x5C;".data
  else if c = Char.ofNat 96 then "&#96;".data
  else [c]

/-- Embedding of `validator.escape`. -/
def jsEscape (s : String) : String :=
  ⟨s.data.foldr (fun c acc => escapeChar c ++ acc) []⟩

/-- Hexadecimal digit, as in the 24-character ObjectId format. -/
def isHexChar (c : Char) : Bool :=
  c.isDigit || (97 ≤ c.toNat && c.toNat ≤ 102) || (65 ≤ c.toNat && c.toNat ≤ 70)

/-- Embedding of `mongoose.Types.ObjectId.isValid` on a string argument
(equivalently, of whether casting the string to an ObjectId succeeds):
a 24-character hex string, or any 12-character string (treated as 12
bytes). -/
def isValidOidString (s : String) : Bool :=
  s.length == 12 || (s.length == 24 && s.data.all isHexChar)

/-- Argument shapes `mongoose.Types.ObjectId.isValid` is called with in this
codebase: a plain string, or — in `getCompanyById`, which passes `{ id }` —
a wrapper object holding string fields. -/
inductive IdCheckArg where
  | strArg (s : String)
  | objArg (fields : List (String × String))
deriving Repr, DecidableEq

/-- Embedding of `mongoose.Types.ObjectId.isValid` on either argument shape.
A plain JavaScript object is not an ObjectId, not a castable string and not
a 12-byte value, so `isValid` returns `false` for every `objArg`. -/
def oidIsValid : IdCheckArg → Bool
  | .strArg s => isValidOidString s
  | .objArg _ => false

/-- Structured JavaScript values, as passed to `sanitizeInput`. -/
inductive JsValue where
  | str (s : String)
  | num (n : Int)
  | jbool (b : Bool)
  | jnull
  | obj (fields : List (String × JsValue))
  | arr (elems : List JsValue)
deriving Repr

/-- Embedding of `sanitizeInput` (src/utils/SanitizeInput.js): a string is
trimmed and escaped; any other value — objects and arrays included — is
returned as-is.  There is no recursion. -/
def sanitizeInput : JsValue → JsValue
  | .str s => .str (jsEscape (jsTrim s))
  | v => v

mutual
/-- Modelled from the spec: the SanitationBoundary the specification
describes — "trims/escapes string leaves, passes non-strings through
unchanged, recursively applied to object/array shapes".  This is the
claimed behaviour, written from the spec's words for comparison with
`sanitizeInput`, the function the source actually defines. -/
def sanitizeSpecRec : JsValue → JsValue
  | .str s => .str (jsEscape (jsTrim s))
  | .num n => .num n
  | .jbool b => .jbool b
  | .jnull => .jnull
  | .obj fields => .obj (sanitizeSpecFields fields)
  | .arr elems => .arr (sanitizeSpecList elems)

/-- Recursive sanitization of object fields (spec version). -/
def sanitizeSpecFields : List (String × JsValue) → List (String × JsValue)
  | [] => []
  | (k, v) :: rest => (k, sanitizeSpecRec v) :: sanitizeSpecFields rest

/-- Recursive sanitization of array elements (spec version). -/
def sanitizeSpecList : List JsValue → List JsValue
  | [] => []
  | v :: rest => sanitizeSpecRec v :: sanitizeSpecList rest
end

/-! ## Data model

One structure per Mongoose schema.  `_id` values are strings (`id` fields).
The User `profile` sub-document and file uploads are not modelled: the spec
excludes file/object-storage handling as external collaborators and no
claim mentions profile contents. -/

/-- Document of the User collection (user.model.js). -/
structure UserDoc where
  id : String
  name : String
  email : String
  phone : String
  password : String
  role : String
deriving Repr, DecidableEq

/-- Document of the Company collection (company.model.js).  `userId` is a
list of owner references, as in the schema. -/
structure CompanyDoc where
  id : String
  name : String
  description : String
  website : String
  location : String
  logo : Option String
  jobs : List String
  userId : List String
deriving Repr, DecidableEq

/-- Document of the JobCategory collection (job_categories model). -/
structure CategoryDoc where
  id : String
  name : String
  jobs : List String
deriving Repr, DecidableEq

/-- Document of the Job collection.  The fields are the ones `postJob`
persists (job.model.js itself is not among the source files; the field list
follows the spec's Job entity). -/
structure JobDoc where
  id : String
  title : String
  description : String
  company : String
  location : String
  experience : String
  salary : String
  jobOpenings : Int
  requirements : List String
  jobType : String
  categories : List String
  postedBy : String
  applicants : List String
deriving Repr, DecidableEq

/-- Document of the Application collection (application model). -/
structure ApplicationDoc where
  id : String
  job : String
  applicant : String
  resume : String
  coverLetter : Option String
  status : String
deriving Repr, DecidableEq

/-- The whole document store: the five collections. -/
structure Store where
  users : List UserDoc
  companies : List CompanyDoc
  categories : List CategoryDoc
  jobs : List JobDoc
  applications : List ApplicationDoc
deriving Repr, DecidableEq

/-- Well-formedness MongoDB itself guarantees: `_id` values are unique
within each collection. -/
def Store.WF (s : Store) : Prop :=
  (s.users.map (·.id)).Nodup ∧
  (s.companies.map (·.id)).Nodup ∧
  (s.categories.map (·.id)).Nodup ∧
  (s.jobs.map (·.id)).Nodup ∧
  (s.applications.map (·.id)).Nodup

instance (s : Store) : Decidable s.WF := by
  unfold Store.WF; infer_instance

/-! ## Responses -/

/-- The part of the JSON response the claims talk about: HTTP status code,
the `success` flag and the `message` string. -/
structure Resp where
  status : Nat
  success : Bool
  message : String
deriving Repr, DecidableEq

/-- Result of running a controller: the response sent and the store after
the controller's writes. -/
structure HResult where
  resp : Resp
  store : Store
deriving Repr, DecidableEq

/-- Message of a Mongoose `CastError` (malformed ObjectId), surfaced by the
controllers' catch-blocks inside a 500 response. -/
def castErrMsg : String := "Cast to ObjectId failed"

/-! ## JavaScript truthiness of request fields -/

/-- Truthiness of an optional string body field: absent (`undefined`) and
the empty string are falsy. -/
def truthy : Option String → Bool
  | none => false
  | some s => !s.isEmpty

/-- Truthiness of an optional numeric body field: absent and `0` are
falsy. -/
def truthyNum : Option Int → Bool
  | none => false
  | some n => n != 0

/-! ## UserDirectory: registration (user.controller.js `createUser`) -/

/-- Body of a registration request (`/user/auth/create`).  The optional
file upload and the `profile` object are external-collaborator concerns the
spec excludes; no claim mentions them. -/
structure RegisterReq where
  name : Option String
  email : Option String
  phone : Option String
  password : Option String
  role : Option String
deriving Repr, DecidableEq

/-- Stand-in for the salted bcrypt hash computed by the `pre("save")` hook
(cost factor 10).  Claims never inspect the hash value, only that the raw
password is replaced by a hash before persistence. -/
def bcryptHash (p : String) : String := "$2a$10$" ++ p

/-- Word character of the JavaScript regex class `\w`. -/
def isWordChar (c : Char) : Bool := c.isAlphanum || c == Char.ofNat 95

/-- Matches `\w+([.-]?\w+)*`: a nonempty run of word characters with
isolated `.`/`-` separators (never leading, trailing or adjacent). -/
def wordSegOk (l : List Char) : Bool :=
  match l with
  | [] => false
  | c :: _ =>
    isWordChar c &&
    (match l.getLast? with | some d => isWordChar d | none => false) &&
    l.all (fun c => isWordChar c || c == Char.ofNat 46 || c == Char.ofNat 45) &&
    (l.zip l.tail).all (fun p => isWordChar p.1 || isWordChar p.2)

/-- Embedding of the schema's email pattern
`/^\w+([.-]?\w+)*@\w+([.-]?\w+)*(\.\w{2,3})+$/`: a local part and a domain
part joined by one `@`; the domain additionally ends in a dot-separated
group of two or three word characters. -/
def emailRegexOk (s : String) : Bool :=
  match s.data.splitOn (Char.ofNat 64) with
  | [localPart, domain] =>
    wordSegOk localPart && wordSegOk domain &&
    (match (domain.splitOn (Char.ofNat 46)).getLast? with
     | some tld =>
       decide (2 ≤ tld.length) && decide (tld.length ≤ 3) &&
       tld.all isWordChar && domain.contains (Char.ofNat 46)
     | none => false)
  | _ => false

/-- Embedding of the schema's phone pattern `/^\d{10}$/`. -/
def phoneRegexOk (s : String) : Bool :=
  s.length == 10 && s.data.all Char.isDigit

/-- The value the User schema's `lowercase`/`trim` setters produce; Mongoose
also applies these setters to `findOne` filter values (Mongoose ≥ 6). -/
def emailSetter (e : String) : String := jsTrim (asciiLower e)

/-- Embedding of `User.create` followed by the schema validators and the
password-hashing `pre("save")` hook (user.model.js): `name` is trimmed and
required, `email` is lowercased/trimmed and must match the email pattern,
`phone` must be 10 digits, `password` must be at least 6 characters before
hashing, `role` must be in the enum. -/
def userCreate (fresh : String) (r : RegisterReq) : Except String UserDoc :=
  let name := jsTrim (r.name.getD "")
  let email := emailSetter (r.email.getD "")
  let phone := r.phone.getD ""
  let pw := r.password.getD ""
  let role := r.role.getD ""
  if name.isEmpty then .error "Name is required"
  else if email.isEmpty then .error "Email is required"
  else if !emailRegexOk email then .error "Please fill a valid email address"
  else if !phoneRegexOk phone then .error "Please fill a valid phone number"
  else if pw.isEmpty then .error "Password is required"
  else if pw.length < 6 then .error "Password must be at least 6 characters long"
  else if !(role == "user" || role == "recruiter") then .error "role is not a valid enum value"
  else .ok { id := fresh, name := name, email := email, phone := phone,
             password := bcryptHash pw, role := role }

/-- Embedding of `createUser` (user.controller.js lines 16–80): require the
five fields, reject if `findOne({ email })` — with the schema's
lowercase/trim setters applied to the filter — finds an existing user,
otherwise persist (200, the handler calls `res.json` with the default
status). -/
def register (s : Store) (fresh : String) (r : RegisterReq) : HResult :=
  if !(truthy r.name && truthy r.email && truthy r.phone &&
       truthy r.password && truthy r.role) then
    ⟨⟨400, false, "All fields are required"⟩, s⟩
  else if s.users.any (fun u => u.email == emailSetter (r.email.getD "")) then
    ⟨⟨400, false, "User with this email already exists"⟩, s⟩
  else
    match userCreate fresh r with
    | .error m => ⟨⟨500, false, m⟩, s⟩
    | .ok u => ⟨⟨200, true, "User created successfully"⟩,
               { s with users := s.users ++ [u] }⟩

/-! ## CompanyRegistry (company.controller.js) -/

/-- Body of `/company/create`.  The authenticated caller's id comes from
`req.user._id`, passed separately below. -/
structure CreateCompanyReq where
  name : Option String
  description : Option String
  website : Option String
  location : Option String
  userId : Option String
deriving Repr, DecidableEq

/-- Embedding of `createCompany` (company.controller.js lines 15–84): all
five body fields are required (the body's `userId` among them), but the
persisted owner is `req.user._id` — the `caller` argument — not the body
value.  `sanitizeInput` is applied to the object of fields and, being a
non-string, the object passes through unchanged.  Creating the document
casts the owner id; a malformed caller id would surface as a 500. -/
def createCompany (s : Store) (caller fresh : String) (r : CreateCompanyReq) : HResult :=
  if !(truthy r.name && truthy r.description && truthy r.website &&
       truthy r.location && truthy r.userId) then
    ⟨⟨400, false, "All fields are required"⟩, s⟩
  else
    let name := r.name.getD ""
    if s.companies.any (fun c => c.name == name) then
      ⟨⟨400, false, "Company with name " ++ name ++ " already exists."⟩, s⟩
    else if !isValidOidString caller then
      ⟨⟨500, false, castErrMsg⟩, s⟩
    else
      ⟨⟨201, true, "Company created successfully"⟩,
       { s with companies := s.companies ++
          [{ id := fresh, name := name, description := r.description.getD "",
             website := jsTrim (r.website.getD ""), location := r.location.getD "",
             logo := none, jobs := [], userId := [caller] }] }⟩

/-- Embedding of `getCompanyById` (company.controller.js lines 141–173).
The source validates the id with `mongoose.Types.ObjectId.isValid({ id })` —
note the object wrapper `{ id }` around the path parameter — and only then
looks the company up. -/
def getCompanyById (s : Store) (id : String) : HResult :=
  if !(oidIsValid (.objArg [("id", id)])) then
    ⟨⟨400, false, "Invalid Company ID"⟩, s⟩
  else
    match s.companies.find? (fun c => c.id == id) with
    | none => ⟨⟨404, false, "Company not found"⟩, s⟩
    | some _ => ⟨⟨200, true, "Company found successfully"⟩, s⟩

/-! ## JobBoard (job.controller.js) -/

/-- Body of `/job/post`.  `jobOpenings` is numeric; `requirements` and
`categories` are arrays. -/
structure PostJobReq where
  title : Option String
  description : Option String
  company : Option String
  location : Option String
  experience : Option String
  salary : Option String
  jobOpenings : Option Int
  requirements : Option (List String)
  jobType : Option String
  categories : Option (List String)
deriving Repr, DecidableEq

/-- The required-field precheck of `postJob` (job.controller.js lines
32–47), in source order: `title, description, company, experience,
location, jobOpenings, jobType, categories, userId`.  Note that `salary`
and `requirements` are destructured but absent from this condition.  An
array value is always truthy in JavaScript, so for `categories` only
presence is checked. -/
def postJobFieldCheck (userId : String) (r : PostJobReq) : Bool :=
  truthy r.title && truthy r.description && truthy r.company &&
  truthy r.experience && truthy r.location && truthyNum r.jobOpenings &&
  truthy r.jobType && r.categories.isSome && !userId.isEmpty

/-- Modelled from the spec: `Job.create` with the Job schema's validation.
The file job.model.js is not among the source files (only its importers
are); per the spec's Job entity, "title, description, location, experience,
salary, jobOpenings, requirements, jobType (required fields enforced at
creation)" together with the required `company` reference and the required
`categories` reference list.  Mongoose `required` rejects a missing or
empty string, a missing number, and a missing or empty array; reference
fields are cast to ObjectId (a malformed id throws a `CastError`). -/
def jobCreate (fresh userId : String) (r : PostJobReq) : Except String JobDoc :=
  if !(isValidOidString userId && isValidOidString (r.company.getD "") &&
       (r.categories.getD []).all isValidOidString) then
    .error castErrMsg
  else if !(truthy r.title && truthy r.description && truthy r.company &&
            truthy r.location && truthy r.experience && truthy r.salary &&
            r.jobOpenings.isSome && truthy r.jobType) then
    .error "Job validation failed"
  else
    match r.requirements, r.categories with
    | some reqs, some cats =>
      if reqs.isEmpty || cats.isEmpty then .error "Job validation failed"
      else .ok { id := fresh, title := r.title.getD "",
                 description := r.description.getD "", company := r.company.getD "",
                 location := r.location.getD "", experience := r.experience.getD "",
                 salary := r.salary.getD "", jobOpenings := r.jobOpenings.getD 0,
                 requirements := reqs, jobType := r.jobType.getD "",
                 categories := cats, postedBy := userId, applicants := [] }
    | _, _ => .error "Job validation failed"

/-- Embedding of `postJob` (job.controller.js lines 15–113): required-field
precheck; `sanitizeInput` over the object of fields (the identity, since
the object is not a string); `Company.findById` (a malformed id throws a
`CastError`, caught as 500); `JobCategory.find({ _id: { $in: categories }})`
(likewise casting every listed id) compared by count against the request
list; `Job.create`; then two follow-up writes pushing the new job id into
every listed category's `jobs` and into the company's `jobs`. -/
def postJob (s : Store) (userId fresh : String) (r : PostJobReq) : HResult :=
  if !postJobFieldCheck userId r then
    ⟨⟨400, false, "All required fields must be provided"⟩, s⟩
  else
    let company := r.company.getD ""
    let cats := r.categories.getD []
    if !isValidOidString company then ⟨⟨500, false, castErrMsg⟩, s⟩
    else
      match s.companies.find? (fun c => c.id == company) with
      | none => ⟨⟨400, false, "Invalid company ID"⟩, s⟩
      | some _ =>
        if !(cats.all isValidOidString) then ⟨⟨500, false, castErrMsg⟩, s⟩
        else if (s.categories.filter (fun c => cats.contains c.id)).length != cats.length then
          ⟨⟨400, false, "One or more job categories are invalid"⟩, s⟩
        else
          match jobCreate fresh userId r with
          | .error m => ⟨⟨500, false, m⟩, s⟩
          | .ok j =>
            ⟨⟨201, true, "Job created successfully"⟩,
             { s with
               jobs := s.jobs ++ [j],
               categories := s.categories.map (fun c =>
                 if cats.contains c.id then { c with jobs := c.jobs ++ [j.id] } else c),
               companies := s.companies.map (fun c =>
                 if c.id == company then { c with jobs := c.jobs ++ [j.id] } else c) }⟩

/-- Embedding of `deleteJob` (job.controller.js lines 327–369): validate the
id, `findByIdAndDelete`, then `$pull` the job id out of every referencing
JobCategory and Company.  Applications are not touched. -/
def deleteJob (s : Store) (id : String) : HResult :=
  if !isValidOidString id then
    ⟨⟨400, false, "Invalid Job ID"⟩, s⟩
  else
    match s.jobs.find? (fun j => j.id == id) with
    | none => ⟨⟨404, false, "Job not found"⟩, s⟩
    | some _ =>
      ⟨⟨200, true, "Job deleted successfully"⟩,
       { s with
         jobs := s.jobs.filter (fun j => j.id != id),
         categories := s.categories.map (fun c =>
           { c with jobs := c.jobs.filter (fun x => x != id) }),
         companies := s.companies.map (fun c =>
           { c with jobs := c.jobs.filter (fun x => x != id) }) }⟩

/-! ## ApplicationTracker (application controller) -/

/-- Body of `/application/apply/:jobId`. -/
structure ApplyReq where
  resume : Option String
  coverLetter : Option String
deriving Repr, DecidableEq

/-- Embedding of `applyJob` (application controller lines 17–86):
`Job.findById(jobId)` (malformed id: `CastError` → 500; absent: 404);
`Application.findOne({ applicant, job })` — casting the applicant id —
rejects a duplicate pair with 400; `resume` required; `sanitizeInput` over
the object of fields (the identity); `Application.create` with default
status "Applied" and the schema's `trim` on `coverLetter`; then push the
new application id onto the job's `applicants`. -/
def applyJob (s : Store) (userId jobId fresh : String) (r : ApplyReq) : HResult :=
  if !isValidOidString jobId then ⟨⟨500, false, castErrMsg⟩, s⟩
  else
    match s.jobs.find? (fun j => j.id == jobId) with
    | none => ⟨⟨404, false, "Job not found."⟩, s⟩
    | some _ =>
      if !isValidOidString userId then ⟨⟨500, false, castErrMsg⟩, s⟩
      else if s.applications.any (fun a => a.applicant == userId && a.job == jobId) then
        ⟨⟨400, false, "You have already applied for this job."⟩, s⟩
      else if !truthy r.resume then
        ⟨⟨400, false, "Resume is required."⟩, s⟩
      else
        ⟨⟨201, true, "Application submitted successfully."⟩,
         { s with
           applications := s.applications ++
             [{ id := fresh, job := jobId, applicant := userId,
                resume := r.resume.getD "", coverLetter := r.coverLetter.map jsTrim,
                status := "Applied" }],
           jobs := s.jobs.map (fun j =>
             if j.id == jobId then { j with applicants := j.applicants ++ [fresh] } else j) }⟩

/-- The Application status enum (application model). -/
def validStatuses : List String :=
  ["Applied", "Reviewed", "Interview", "Offered", "Rejected"]

/-- Embedding of `updateApplicationStatus` (application controller lines
212–294): validate the id, require a `status` in the body, require it to be
one of the enum values, then `findByIdAndUpdate` overwriting `status`
unconditionally (404 when the id resolves to nothing). -/
def updateApplicationStatus (s : Store) (applicationId : String)
    (status : Option String) : HResult :=
  if !isValidOidString applicationId then
    ⟨⟨400, false, "Invalid application ID."⟩, s⟩
  else if !truthy status then
    ⟨⟨400, false, "Status is required."⟩, s⟩
  else if !(validStatuses.contains (status.getD "")) then
    ⟨⟨400, false, "Invalid status value."⟩, s⟩
  else if s.applications.any (fun a => a.id == applicationId) then
    ⟨⟨200, true, "Application status updated successfully."⟩,
     { s with applications := s.applications.map (fun a =>
         if a.id == applicationId then { a with status := status.getD "" } else a) }⟩
  else
    ⟨⟨404, false, "Application not found."⟩, s⟩

/-- Number of Application documents for a (job, applicant) pair. -/
def pairCount (s : Store) (userId jobId : String) : Nat :=
  (s.applications.filter (fun a => a.applicant == userId && a.job == jobId)).length

/-! ## Concrete documents and stores

Concrete 24-character hex ObjectIds and small stores, used to instantiate
the theorems below on evaluable inputs. -/

def oidUser : String := "aaaaaaaaaaaaaaaaaaaaaaaa"

def oidCompany : String := "bbbbbbbbbbbbbbbbbbbbbbbb"

def oidCat : String := "cccccccccccccccccccccccc"

def oidCatAbsent : String := "123412341234123412341234"

def oidJob : String := "dddddddddddddddddddddddd"

def oidApp : String := "eeeeeeeeeeeeeeeeeeeeeeee"

def oidFresh : String := "ffffffffffffffffffffffff"

def oidFresh2 : String := "abcabcabcabcabcabcabcabc"

/-- A company document used by the concrete stores. -/
def demoCompany : CompanyDoc where
  id := oidCompany
  name := "Acme"
  description := "makes anvils"
  website := "https://acme.example"
  location := "Pune"
  logo := none
  jobs := []
  userId := [oidUser]

/-- A job-category document used by the concrete stores. -/
def demoCategory : CategoryDoc where
  id := oidCat
  name := "Engineering"
  jobs := []

/-- A job document used by the concrete stores. -/
def demoJob : JobDoc where
  id := oidJob
  title := "Engineer"
  description := "builds"
  company := oidCompany
  location := "Pune"
  experience := "2y"
  salary := "10LPA"
  jobOpenings := 3
  requirements := ["lean"]
  jobType := "Full-time"
  categories := [oidCat]
  postedBy := oidUser
  applicants := []

/-- An application document used by the concrete stores. -/
def demoApplication : ApplicationDoc where
  id := oidApp
  job := oidJob
  applicant := oidUser
  resume := "https://cv.example/r.pdf"
  coverLetter := none
  status := "Applied"

/-- A user document with a setter-normalized (lowercased, trimmed) email. -/
def demoUser : UserDoc where
  id := oidUser
  name := "Jo"
  email := "jo@mail.com"
  phone := "1234567890"
  password := bcryptHash "secret"
  role := "user"

/-- Store with one company and one category (job-posting scenarios). -/
def postStore : Store where
  users := []
  companies := [demoCompany]
  categories := [demoCategory]
  jobs := []
  applications := []

/-- A fully valid job-posting request against `postStore`. -/
def postReq : PostJobReq where
  title := some "Engineer"
  description := some "builds"
  company := some oidCompany
  location := some "Pune"
  experience := some "2y"
  salary := some "10LPA"
  jobOpenings := some 3
  requirements := some ["lean"]
  jobType := some "Full-time"
  categories := some [oidCat]

/-- Store with a job, its company/category back-references, and one
application referencing the job (deletion/application scenarios). -/
def jobStore : Store where
  users := [demoUser]
  companies := [{ demoCompany with jobs := [oidJob] }]
  categories := [{ demoCategory with jobs := [oidJob] }]
  jobs := [demoJob]
  applications := [demoApplication]

/-- Store with one job and no applications (apply scenarios). -/
def applyStore : Store where
  users := [demoUser]
  companies := [{ demoCompany with jobs := [oidJob] }]
  categories := [{ demoCategory with jobs := [oidJob] }]
  jobs := [demoJob]
  applications := []

/-- Store with one user (registration scenarios). -/
def userStore : Store where
  users := [demoUser]
  companies := []
  categories := []
  jobs := []
  applications := []

/-- A registration request reusing `demoUser`'s email with different
casing. -/
def dupEmailReq : RegisterReq where
  name := some "Another"
  email := some "Jo@Mail.Com"
  phone := some "0987654321"
  password := some "hunter22"
  role := some "user"

/-- A company-creation request whose body `userId` differs from the
authenticated caller. -/
def companyReq : CreateCompanyReq where
  name := some "Globex"
  description := some "globes"
  website := some "https://globex.example"
  location := some "Mumbai"
  userId := some oidCatAbsent

/-- The object `sanitizeInput` fails to recurse into: a string leaf that
needs trimming and escaping, nested inside an object. -/
def nestedInput : JsValue := .obj [("bio", .str " <b> ")]

/-- The valid posting request with a structurally malformed category id. -/
def malformedCatReq : PostJobReq := { postReq with categories := some ["zzz"] }

/-- The valid posting request listing one existing and one absent (but
structurally valid) category id. -/
def absentCatReq : PostJobReq :=
  { postReq with categories := some [oidCat, oidCatAbsent] }

/-- The valid posting request with `salary` missing. -/
def noSalaryReq : PostJobReq := { postReq with salary := none }

/-- The valid posting request with `title` missing. -/
def noTitleReq : PostJobReq := { postReq with title := none }

/-- A well-formed application body. -/
def applyReq : ApplyReq where
  resume := some "https://cv.example/r.pdf"
  coverLetter := none

/-- The company-creation request without a body `userId`. -/
def noUserIdReq : CreateCompanyReq := { companyReq with userId := none }

/-! ## Helper lemmas -/

lemma not_mem_filter_ne (l : List String) (id : String) :
    id ∉ l.filter (fun x => x != id) := by
  simp [List.mem_filter]

lemma filter_map_length {α β} (f : α → β) (p : β → Bool) (l : List α) :
    (l.filter (fun a => p (f a))).length = ((l.map f).filter p).length := by
  induction l with
  | nil => rfl
  | cons a t ih => by_cases h : p (f a) <;> simp [List.filter_cons, h, ih]

lemma filter_contains_length_lt (ids cats : List String) (hnd : ids.Nodup)
    (cid : String) (hc : cid ∈ cats) (hni : cid ∉ ids) :
    (ids.filter (fun i => cats.contains i)).length < cats.length := by
  classical
  have hsub : (ids.filter (fun i => cats.contains i)).toFinset ⊆
      cats.toFinset.erase cid := by
    intro x hx
    simp only [List.mem_toFinset, List.mem_filter] at hx
    rcases hx with ⟨hxids, hxcats⟩
    have hxc : x ∈ cats := by simpa using hxcats
    refine Finset.mem_erase.mpr ⟨?_, by simp [List.mem_toFinset, hxc]⟩
    rintro rfl; exact hni hxids
  have hnd' : (ids.filter (fun i => cats.contains i)).Nodup := hnd.filter _
  calc (ids.filter (fun i => cats.contains i)).length
      = (ids.filter (fun i => cats.contains i)).toFinset.card :=
        (List.toFinset_card_of_nodup hnd').symm
    _ ≤ (cats.toFinset.erase cid).card := Finset.card_le_card hsub
    _ < cats.toFinset.card := Finset.card_erase_lt_of_mem (by simp [List.mem_toFinset, hc])
    _ ≤ cats.length := List.toFinset_card_le cats

lemma category_filter_lt (docs : List CategoryDoc) (cats : List String)
    (hnd : (docs.map (fun c => c.id)).Nodup) (cid : String) (hc : cid ∈ cats)
    (hni : ∀ c ∈ docs, c.id ≠ cid) :
    (docs.filter (fun c => cats.contains c.id)).length < cats.length := by
  have h1 := filter_map_length (fun c : CategoryDoc => c.id) (fun i => cats.contains i) docs
  rw [h1]
  refine filter_contains_length_lt _ _ hnd cid hc ?_
  intro hmem
  rcases List.mem_map.mp hmem with ⟨c, hcmem, hcid⟩
  exact hni c hcmem hcid

lemma category_all_present (docs : List CategoryDoc) (cats : List String)
    (hnd : (docs.map (fun c => c.id)).Nodup)
    (hlen : (docs.filter (fun c => cats.contains c.id)).length = cats.length) :
    ∀ cid ∈ cats, ∃ c ∈ docs, c.id = cid := by
  intro cid hc
  by_contra hno
  push_neg at hno
  exact absurd hlen (Nat.ne_of_lt (category_filter_lt docs cats hnd cid hc hno))

lemma jobCreate_ok_id (fresh uid : String) (r : PostJobReq) (j : JobDoc)
    (h : jobCreate fresh uid r = .ok j) : j.id = fresh := by
  unfold jobCreate at h
  split at h
  · cases h
  · split at h
    · cases h
    · rcases hreq : r.requirements with _ | reqs <;> rcases hcat : r.categories with _ | cs <;>
        rw [hreq, hcat] at h <;> simp at h
      split at h
      · cases h
      · injection h with h
        rw [← h]

lemma applyJob_duplicate (s : Store) (uid jid fresh : String) (r : ApplyReq)
    (hjv : isValidOidString jid = true) (huv : isValidOidString uid = true)
    (hjob : ∃ j ∈ s.jobs, j.id = jid)
    (hex : s.applications.any (fun a => a.applicant == uid && a.job == jid) = true) :
    applyJob s uid jid fresh r =
      ⟨⟨400, false, "You have already applied for this job."⟩, s⟩ := by
  have hsome : (s.jobs.find? (fun j => j.id == jid)).isSome = true := by
    refine List.find?_isSome.mpr ?_
    rcases hjob with ⟨j, hj, hid⟩
    exact ⟨j, hj, by simp [hid]⟩
  rcases hfind : s.jobs.find? (fun j => j.id == jid) with _ | j0
  · rw [hfind] at hsome; simp at hsome
  · rw [applyJob]; simp [hjv, hfind, huv, hex]

/-! ## Claim theorems -/

/-- C1 (amended): for every job-posting request in which at least one id in
`categories` does not resolve to an existing JobCategory, the store is left
unchanged (in particular no Job is persisted) and the operation fails with
either 400 or 500; the failure is BadRequest (400) whenever the request's
company id and every listed category id are structurally valid ObjectIds —
a structurally malformed id instead surfaces as a 500 cast error. -/
theorem postJob_unresolved_category_rejected (s : Store) (uid fresh : String)
    (r : PostJobReq) (cats : List String)
    (hwf : s.WF) (hcats : r.categories = some cats)
    (hmiss : ∃ cid ∈ cats, ∀ c ∈ s.categories, c.id ≠ cid) :
    ((postJob s uid fresh r).store = s ∧
     ((postJob s uid fresh r).resp.status = 400 ∨
      (postJob s uid fresh r).resp.status = 500)) ∧
    ((∀ co, r.company = some co → isValidOidString co = true) →
     (∀ cid ∈ cats, isValidOidString cid = true) →
     (postJob s uid fresh r).resp.status = 400) := by
  obtain ⟨cid, hcid, hni⟩ := hmiss
  have hlt : (s.categories.filter (fun c => cats.contains c.id)).length < cats.length :=
    category_filter_lt s.categories cats hwf.2.2.1 cid hcid hni
  have hne : ((s.categories.filter (fun c => cats.contains c.id)).length != cats.length)
      = true := by
    simp only [bne_iff_ne, ne_eq]
    exact Nat.ne_of_lt hlt
  by_cases hfc : postJobFieldCheck uid r
  · have hcomp : truthy r.company = true := by
      unfold postJobFieldCheck at hfc
      simp only [Bool.and_eq_true] at hfc
      exact hfc.1.1.1.1.1.1.2
    obtain ⟨c0, hc0⟩ : ∃ c0, r.company = some c0 := by
      rcases hr : r.company with _ | c0
      · rw [hr] at hcomp; simp [truthy] at hcomp
      · exact ⟨c0, rfl⟩
    by_cases hcv : isValidOidString (r.company.getD "") = true
    · rcases hfind : s.companies.find? (fun c => c.id == r.company.getD "") with _ | co0
      · rw [postJob]
        simp only [hfc, hcv, hfind, hcats, Option.getD_some, Bool.not_true,
          Bool.false_eq_true, if_false]
        exact ⟨⟨trivial, Or.inl trivial⟩, fun _ _ => trivial⟩
      · by_cases hcast : cats.all isValidOidString = true
        · rw [postJob]
          simp only [hfc, hcv, hfind, hcats, Option.getD_some, hcast, hne,
            Bool.not_true, Bool.false_eq_true, if_false, if_true, eq_self_iff_true]
          exact ⟨⟨trivial, Or.inl trivial⟩, fun _ _ => trivial⟩
        · have hcast' : cats.all isValidOidString = false := by
            simpa using hcast
          constructor
          · rw [postJob]
            simp only [hfc, hcv, hfind, hcats, Option.getD_some, hcast',
              Bool.not_true, Bool.not_false, Bool.false_eq_true, if_false, if_true]
            exact ⟨trivial, Or.inr trivial⟩
          · intro _ hcv2
            exact absurd (List.all_eq_true.mpr (fun x hx => by simpa using hcv2 x hx)) hcast
    · have hcv' : isValidOidString (r.company.getD "") = false := by
        simpa using hcv
      constructor
      · rw [postJob]
        simp only [hfc, hcv', Bool.not_true, Bool.not_false, Bool.false_eq_true,
          if_false, if_true]
        exact ⟨trivial, Or.inr trivial⟩
      · intro hco _
        rw [hc0] at hcv
        exact absurd (hco c0 hc0) (by simpa using hcv)
  · have hfc' : postJobFieldCheck uid r = false := by simpa using hfc
    rw [postJob]
    simp only [hfc', Bool.not_false, if_true]
    exact ⟨⟨trivial, Or.inl trivial⟩, fun _ _ => trivial⟩

/-- C1 counterexample to the claim as stated: a posting request whose
`categories` holds the structurally malformed id "zzz" — which resolves to
no JobCategory — is answered with 500 (the `$in` cast error is caught by
the catch-block), not with the claimed BadRequest 400. -/
theorem postJob_malformed_category_id_gives_500 :
    malformedCatReq.categories = some ["zzz"] ∧
    (∀ c ∈ postStore.categories, c.id ≠ "zzz") ∧
    (postJob postStore oidUser oidFresh malformedCatReq).resp.status = 500 ∧
    ((postJob postStore oidUser oidFresh malformedCatReq).resp.status = 400 → False) := by
  decide

/-- C1 witness: the amended theorem applied to a request listing one
existing and one absent (structurally valid) category id. -/
theorem postJob_unresolved_category_witness :
    ((postJob postStore oidUser oidFresh absentCatReq).store = postStore ∧
     ((postJob postStore oidUser oidFresh absentCatReq).resp.status = 400 ∨
      (postJob postStore oidUser oidFresh absentCatReq).resp.status = 500)) ∧
    ((∀ co, absentCatReq.company = some co → isValidOidString co = true) →
     (∀ cid ∈ [oidCat, oidCatAbsent], isValidOidString cid = true) →
     (postJob postStore oidUser oidFresh absentCatReq).resp.status = 400) :=
  postJob_unresolved_category_rejected postStore oidUser oidFresh absentCatReq
    [oidCat, oidCatAbsent] (by decide) (by decide) (by decide)

/-- C2: for every successful Job deletion (status 200), afterwards the
deleted Job's id is absent from the `jobs` list of every Company and of
every JobCategory (in particular of every one that previously referenced
it), while the Application collection is left byte-for-byte unchanged. -/
theorem deleteJob_cleans_refs_preserves_applications (s : Store) (id : String)
    (h : (deleteJob s id).resp.status = 200) :
    (∀ co ∈ (deleteJob s id).store.companies, id ∉ co.jobs) ∧
    (∀ c ∈ (deleteJob s id).store.categories, id ∉ c.jobs) ∧
    (deleteJob s id).store.applications = s.applications := by
  by_cases hv : isValidOidString id
  · rcases hfind : s.jobs.find? (fun j => j.id == id) with _ | j
    · rw [deleteJob] at h; simp [hv, hfind] at h
    · rw [deleteJob] at h ⊢
      simp only [hv, hfind, Bool.not_true, Bool.false_eq_true, if_false]
      refine ⟨?_, ?_, trivial⟩
      · intro co hco
        rcases List.mem_map.mp hco with ⟨c0, _, rfl⟩
        exact not_mem_filter_ne _ _
      · intro c hc
        rcases List.mem_map.mp hc with ⟨c0, _, rfl⟩
        exact not_mem_filter_ne _ _
  · rw [deleteJob] at h; simp [hv] at h

/-- C2 witness: deleting the job of `jobStore` — which is referenced by the
company, the category and an application — leaves the application intact
and scrubs the job id from the company and the category. -/
theorem deleteJob_cleanup_witness :
    (∀ co ∈ (deleteJob jobStore oidJob).store.companies, oidJob ∉ co.jobs) ∧
    (∀ c ∈ (deleteJob jobStore oidJob).store.categories, oidJob ∉ c.jobs) ∧
    (deleteJob jobStore oidJob).store.applications = jobStore.applications :=
  deleteJob_cleans_refs_preserves_applications jobStore oidJob (by decide)

/-- C3: for every successful Job creation (status 201), the store gains
exactly one Job document whose id is the fresh id, and that id appears in
the `jobs` list of the referenced Company and in the `jobs` list of every
JobCategory named in the request's `categories` list. -/
theorem postJob_links_job_into_company_and_categories (s : Store)
    (uid fresh : String) (r : PostJobReq) (cats : List String)
    (hwf : s.WF) (hcats : r.categories = some cats)
    (h : (postJob s uid fresh r).resp.status = 201) :
    (∃ j, (postJob s uid fresh r).store.jobs = s.jobs ++ [j] ∧ j.id = fresh) ∧
    (∃ co ∈ (postJob s uid fresh r).store.companies,
      r.company = some co.id ∧ fresh ∈ co.jobs) ∧
    (∀ cid ∈ cats, ∃ c ∈ (postJob s uid fresh r).store.categories,
      c.id = cid ∧ fresh ∈ c.jobs) := by
  by_cases hfc : postJobFieldCheck uid r
  · have hcomp : truthy r.company = true := by
      unfold postJobFieldCheck at hfc
      simp only [Bool.and_eq_true] at hfc
      exact hfc.1.1.1.1.1.1.2
    obtain ⟨c0, hc0⟩ : ∃ c0, r.company = some c0 := by
      rcases hr : r.company with _ | c0
      · rw [hr] at hcomp; simp [truthy] at hcomp
      · exact ⟨c0, rfl⟩
    by_cases hcv : isValidOidString (r.company.getD "") = true
    · rcases hfind : s.companies.find? (fun c => c.id == r.company.getD "") with _ | co0
      · rw [postJob] at h
        simp only [hfc, hcv, hfind, Bool.not_true, Bool.false_eq_true, if_false] at h
        exact absurd h (by decide)
      · by_cases hcast : cats.all isValidOidString = true
        · by_cases hlen : ((s.categories.filter (fun c => cats.contains c.id)).length !=
            cats.length) = true
          · rw [postJob] at h
            simp only [hfc, hcv, hfind, hcats, Option.getD_some, hcast, hlen,
              Bool.not_true, Bool.false_eq_true, if_false, if_true] at h
            exact absurd h (by decide)
          · have hlen' : ((s.categories.filter (fun c => cats.contains c.id)).length !=
                cats.length) = false := by simpa using hlen
            have hleneq : (s.categories.filter (fun c => cats.contains c.id)).length =
                cats.length := by
              simpa using hlen'
            rcases hjc : jobCreate fresh uid r with m | j
            · rw [postJob] at h
              simp only [hfc, hcv, hfind, hcats, Option.getD_some, hcast, hlen', hjc,
                Bool.not_true, Bool.false_eq_true, if_false] at h
              exact absurd h (by decide)
            · have hjid : j.id = fresh := jobCreate_ok_id fresh uid r j hjc
              have hs' : (postJob s uid fresh r).store =
                  { s with
                    jobs := s.jobs ++ [j],
                    categories := s.categories.map (fun c =>
                      if cats.contains c.id then { c with jobs := c.jobs ++ [j.id] } else c),
                    companies := s.companies.map (fun c =>
                      if c.id == r.company.getD "" then { c with jobs := c.jobs ++ [j.id] }
                      else c) } := by
                rw [postJob]
                simp only [hfc, hcv, hfind, hcats, Option.getD_some, hcast, hlen', hjc,
                  Bool.not_true, Bool.false_eq_true, if_false]
              have hpred := List.find?_some hfind
              have hco0eq : co0.id = r.company.getD "" := by simpa using hpred
              refine ⟨⟨j, by rw [hs'], hjid⟩, ?_, ?_⟩
              · refine ⟨{ co0 with jobs := co0.jobs ++ [j.id] }, ?_, ?_, ?_⟩
                · rw [hs']
                  exact List.mem_map.mpr ⟨co0, List.mem_of_find?_eq_some hfind,
                    by simp [hpred]⟩
                · rw [hc0]
                  rw [hc0] at hco0eq
                  simp [hco0eq]
                · simp [hjid]
              · intro cid hcidmem
                obtain ⟨cd, hcdmem, hcdid⟩ :=
                  category_all_present s.categories cats hwf.2.2.1 hleneq cid hcidmem
                have hmemb : cd.id ∈ cats := by
                  rw [hcdid]
                  exact hcidmem
                refine ⟨{ cd with jobs := cd.jobs ++ [j.id] }, ?_, hcdid, by simp [hjid]⟩
                rw [hs']
                exact List.mem_map.mpr ⟨cd, hcdmem, by simp [hmemb]⟩
        · have hcast' : cats.all isValidOidString = false := by simpa using hcast
          rw [postJob] at h
          simp only [hfc, hcv, hfind, hcats, Option.getD_some, hcast', Bool.not_true,
            Bool.not_false, Bool.false_eq_true, if_false, if_true] at h
          exact absurd h (by decide)
    · have hcv' : isValidOidString (r.company.getD "") = false := by simpa using hcv
      rw [postJob] at h
      simp only [hfc, hcv', Bool.not_true, Bool.not_false, Bool.false_eq_true,
        if_false, if_true] at h
      exact absurd h (by decide)
  · have hfc' : postJobFieldCheck uid r = false := by simpa using hfc
    rw [postJob] at h
    simp only [hfc', Bool.not_false, if_true] at h
    exact absurd h (by decide)

/-- C3 witness: posting the valid request against `postStore` succeeds and
links the fresh job id into the company and the category. -/
theorem postJob_linking_witness :
    (∃ j, (postJob postStore oidUser oidFresh postReq).store.jobs =
        postStore.jobs ++ [j] ∧ j.id = oidFresh) ∧
    (∃ co ∈ (postJob postStore oidUser oidFresh postReq).store.companies,
      postReq.company = some co.id ∧ oidFresh ∈ co.jobs) ∧
    (∀ cid ∈ [oidCat], ∃ c ∈ (postJob postStore oidUser oidFresh postReq).store.categories,
      c.id = cid ∧ oidFresh ∈ c.jobs) :=
  postJob_links_job_into_company_and_categories postStore oidUser oidFresh postReq
    [oidCat] (by decide) (by decide) (by decide)

/-- C4 (code bug): `getCompanyById` validates
`mongoose.Types.ObjectId.isValid({ id })` — an object wrapper around the
path parameter instead of the parameter itself — which is false for every
object, so EVERY call is answered 400 "Invalid Company ID".  In particular
the structurally valid id of a company present in the store, which per the
claim should be answered 200, is rejected; the NotFound and success
branches are unreachable. -/
theorem getCompanyById_always_bad_request :
    (∀ s id, (getCompanyById s id).resp.status = 400 ∧ (getCompanyById s id).store = s) ∧
    isValidOidString oidCompany = true ∧
    (∃ co ∈ jobStore.companies, co.id = oidCompany) ∧
    (getCompanyById jobStore oidCompany).resp.message = "Invalid Company ID" := by
  refine ⟨fun s id => ?_, by decide, by decide, by decide⟩
  rw [getCompanyById]
  simp [oidIsValid]

/-- C5 counterexample to the claim as stated: on an object holding the
string leaf " <b> ", `sanitizeInput` returns its input unchanged, whereas
the recursive sanitizer the spec describes trims and escapes the leaf —
the two functions differ at this input. -/
theorem sanitizeInput_not_recursive_cex :
    sanitizeInput nestedInput = nestedInput ∧
    sanitizeInput nestedInput ≠ sanitizeSpecRec nestedInput := by
  refine ⟨rfl, ?_⟩
  intro h
  simp [sanitizeInput, sanitizeSpecRec, sanitizeSpecFields, nestedInput] at h
  exact absurd h (by decide)

/-- C5 (amended): the sanitization boundary is a pure function that trims
and escapes a string input, and returns every non-string input — objects
and arrays included, along with any strings nested inside them —
unchanged; it does not recurse into object or array shapes. -/
theorem sanitizeInput_top_level_only :
    (∀ s, sanitizeInput (.str s) = .str (jsEscape (jsTrim s))) ∧
    (∀ fields, sanitizeInput (.obj fields) = .obj fields) ∧
    (∀ elems, sanitizeInput (.arr elems) = .arr elems) ∧
    (∀ n, sanitizeInput (.num n) = .num n) ∧
    (∀ b, sanitizeInput (.jbool b) = .jbool b) ∧
    sanitizeInput .jnull = .jnull :=
  ⟨fun _ => rfl, fun _ => rfl, fun _ => rfl, fun _ => rfl, fun _ => rfl, rfl⟩

/-- C6 counterexample to the claim as stated: a posting request that is
valid except for a missing `salary` passes the controller's required-field
precheck (which never mentions `salary` or `requirements`) and fails only
at `Job.create` — the response is 500, not the claimed BadRequest 400. -/
theorem postJob_missing_salary_not_bad_request :
    noSalaryReq.salary = none ∧
    (postJob postStore oidUser oidFresh noSalaryReq).resp.status = 500 ∧
    ((postJob postStore oidUser oidFresh noSalaryReq).resp.status = 400 → False) := by
  decide

/-- C6 (amended): a posting request missing (or with an empty/zero value
for) any of title, description, companyId, location, experience,
jobOpenings or jobType, or missing the `categoryIds` field, is rejected
with BadRequest 400 and the store is unchanged; and the required-field
precheck is independent of `salary` and `requirements`, so missing them is
never caught by it. -/
theorem postJob_field_precheck_spec (s : Store) (uid fresh : String) (r : PostJobReq) :
    ((truthy r.title = false ∨ truthy r.description = false ∨ truthy r.company = false ∨
      truthy r.location = false ∨ truthy r.experience = false ∨
      truthyNum r.jobOpenings = false ∨ truthy r.jobType = false ∨ r.categories = none) →
      (postJob s uid fresh r).resp.status = 400 ∧ (postJob s uid fresh r).store = s) ∧
    (∀ x y, postJobFieldCheck uid { r with salary := x, requirements := y } =
      postJobFieldCheck uid r) := by
  constructor
  · intro hfalsy
    have hfc : postJobFieldCheck uid r = false := by
      unfold postJobFieldCheck
      rcases hfalsy with h | h | h | h | h | h | h | h <;> simp [h]
    rw [postJob]
    simp [hfc]
  · intro x y
    rfl

/-- C6 witness: the amended theorem applied to a request with a missing
title (rejected 400, store unchanged). -/
theorem postJob_field_precheck_witness :
    (postJob postStore oidUser oidFresh noTitleReq).resp.status = 400 ∧
    (postJob postStore oidUser oidFresh noTitleReq).store = postStore :=
  (postJob_field_precheck_spec postStore oidUser oidFresh noTitleReq).1
    (Or.inl (by decide))

/-- C7: for every registration request whose email equals an existing
User's email under case-insensitive comparison, `register` fails (HTTP 400,
`success: false` — the Conflict coding `createUser` uses), no new User
document is persisted, and — whenever the other required fields are present
so that the request reaches the duplicate check — the response carries the
conflict message.  The hypothesis that the stored email is
setter-normalized (lowercased and trimmed) is the invariant the User
schema's `lowercase`/`trim` setters maintain for every persisted user. -/
theorem register_duplicate_email_conflict (s : Store) (fresh : String)
    (r : RegisterReq) (u : UserDoc)
    (humem : u ∈ s.users) (hnorm : u.email = emailSetter u.email)
    (hcase : asciiLower (r.email.getD "") = asciiLower u.email) :
    (register s fresh r).resp.status = 400 ∧
    (register s fresh r).resp.success = false ∧
    (register s fresh r).store = s ∧
    ((truthy r.name && truthy r.email && truthy r.phone && truthy r.password &&
      truthy r.role) = true →
      (register s fresh r).resp.message = "User with this email already exists") := by
  have hkey : u.email = emailSetter (r.email.getD "") := by
    rw [hnorm]
    unfold emailSetter
    rw [hcase]
  have hfound : s.users.any (fun u' => u'.email == emailSetter (r.email.getD "")) = true :=
    List.any_eq_true.mpr ⟨u, humem, by simp [hkey.symm]⟩
  by_cases hpc : (truthy r.name && truthy r.email && truthy r.phone &&
      truthy r.password && truthy r.role) = true
  · rw [register]; simp [hpc, hfound]
  · rw [register]; simp [hpc]

/-- C7 witness: registering with "Jo@Mail.Com" while "jo@mail.com" is
stored is rejected with the conflict message and persists nothing. -/
theorem register_duplicate_email_witness :
    (register userStore oidFresh dupEmailReq).resp.status = 400 ∧
    (register userStore oidFresh dupEmailReq).resp.success = false ∧
    (register userStore oidFresh dupEmailReq).store = userStore ∧
    ((truthy dupEmailReq.name && truthy dupEmailReq.email && truthy dupEmailReq.phone &&
      truthy dupEmailReq.password && truthy dupEmailReq.role) = true →
      (register userStore oidFresh dupEmailReq).resp.message =
        "User with this email already exists") :=
  register_duplicate_email_conflict userStore oidFresh dupEmailReq demoUser
    (by decide) (by decide) (by decide)

/-- C8: under sequential execution, when a first `apply` for a (job,
applicant) pair succeeds, a second `apply` for the same pair is rejected
with 400 and the duplicate-application message, the store is unchanged by
the second call, and the Application count for the pair is exactly 1 after
both the first and the second call. -/
theorem applyJob_second_apply_conflict (s : Store) (uid jid f1 f2 : String)
    (r1 r2 : ApplyReq)
    (h1 : (applyJob s uid jid f1 r1).resp.status = 201) :
    (applyJob (applyJob s uid jid f1 r1).store uid jid f2 r2).resp.status = 400 ∧
    (applyJob (applyJob s uid jid f1 r1).store uid jid f2 r2).resp.message =
      "You have already applied for this job." ∧
    (applyJob (applyJob s uid jid f1 r1).store uid jid f2 r2).store =
      (applyJob s uid jid f1 r1).store ∧
    pairCount (applyJob s uid jid f1 r1).store uid jid = 1 ∧
    pairCount (applyJob (applyJob s uid jid f1 r1).store uid jid f2 r2).store uid jid
      = 1 := by
  by_cases hjv : isValidOidString jid
  · rcases hfind : s.jobs.find? (fun j => j.id == jid) with _ | j0
    · rw [applyJob] at h1; simp [hjv, hfind] at h1
    · by_cases huv : isValidOidString uid
      · by_cases hex : s.applications.any (fun a => a.applicant == uid && a.job == jid) = true
        · rw [applyJob] at h1; simp [hjv, hfind, huv, hex] at h1
        · by_cases hres : truthy r1.resume
          · have hs1 : (applyJob s uid jid f1 r1).store =
                { s with
                  applications := s.applications ++
                    [{ id := f1, job := jid, applicant := uid,
                       resume := r1.resume.getD "", coverLetter := r1.coverLetter.map jsTrim,
                       status := "Applied" }],
                  jobs := s.jobs.map (fun j =>
                    if j.id == jid then { j with applicants := j.applicants ++ [f1] }
                    else j) } := by
              rw [applyJob]
              simp only [hjv, hfind, huv, hex, hres, Bool.not_true, Bool.not_false,
                Bool.false_eq_true, if_false, if_true]
            have hnil : s.applications.filter
                (fun a => a.applicant == uid && a.job == jid) = [] := by
              have hexf : s.applications.any
                  (fun a => a.applicant == uid && a.job == jid) = false := by
                simpa using hex
              exact List.filter_eq_nil_iff.mpr (List.any_eq_false.mp hexf)
            have hcount1 : pairCount (applyJob s uid jid f1 r1).store uid jid = 1 := by
              rw [hs1]
              unfold pairCount
              simp [List.filter_append, hnil]
            have hjob2 : ∃ j ∈ (applyJob s uid jid f1 r1).store.jobs, j.id = jid := by
              rw [hs1]
              have hpred := List.find?_some hfind
              refine ⟨{ j0 with applicants := j0.applicants ++ [f1] }, ?_, by simpa using hpred⟩
              refine List.mem_map.mpr ⟨j0, List.mem_of_find?_eq_some hfind, ?_⟩
              simp [hpred]
            have hex2 : (applyJob s uid jid f1 r1).store.applications.any
                (fun a => a.applicant == uid && a.job == jid) = true := by
              rw [hs1]
              simp
            have hdup := applyJob_duplicate (applyJob s uid jid f1 r1).store uid jid f2 r2
              hjv huv hjob2 hex2
            refine ⟨?_, ?_, ?_, hcount1, ?_⟩
            · rw [hdup]
            · rw [hdup]
            · rw [hdup]
            · rw [hdup]; exact hcount1
          · rw [applyJob] at h1; simp [hjv, hfind, huv, hex, hres] at h1
      · rw [applyJob] at h1; simp [hjv, hfind, huv] at h1
  · rw [applyJob] at h1; simp [hjv] at h1

/-- C8 witness: applying twice to the job of `applyStore` — the first apply
succeeds, the second is rejected with the duplicate message and the pair's
Application count stays at 1. -/
theorem applyJob_second_apply_witness :
    (applyJob (applyJob applyStore oidUser oidJob oidFresh applyReq).store
      oidUser oidJob oidFresh2 applyReq).resp.status = 400 ∧
    (applyJob (applyJob applyStore oidUser oidJob oidFresh applyReq).store
      oidUser oidJob oidFresh2 applyReq).resp.message =
      "You have already applied for this job." ∧
    (applyJob (applyJob applyStore oidUser oidJob oidFresh applyReq).store
      oidUser oidJob oidFresh2 applyReq).store =
      (applyJob applyStore oidUser oidJob oidFresh applyReq).store ∧
    pairCount (applyJob applyStore oidUser oidJob oidFresh applyReq).store
      oidUser oidJob = 1 ∧
    pairCount (applyJob (applyJob applyStore oidUser oidJob oidFresh applyReq).store
      oidUser oidJob oidFresh2 applyReq).store oidUser oidJob = 1 :=
  applyJob_second_apply_conflict applyStore oidUser oidJob oidFresh oidFresh2
    applyReq applyReq (by decide)

/-- C9: a call to `updateApplicationStatus` with a status string outside
{Applied, Reviewed, Interview, Offered, Rejected} is answered 400 with the
store (in particular, every stored status) unchanged; conversely, for
every existing application and every status inside the enum, the call
succeeds and overwrites the stored status with the new value — with no
restriction relating it to the previous status. -/
theorem updateApplicationStatus_enum_gate (s : Store) (aid : String) (v : String) :
    (v ∉ validStatuses →
      (updateApplicationStatus s aid (some v)).resp.status = 400 ∧
      (updateApplicationStatus s aid (some v)).store = s) ∧
    (v ∈ validStatuses → isValidOidString aid = true →
      (∃ a ∈ s.applications, a.id = aid) →
      (updateApplicationStatus s aid (some v)).resp.status = 200 ∧
      ∀ a ∈ (updateApplicationStatus s aid (some v)).store.applications,
        a.id = aid → a.status = v) := by
  constructor
  · intro hv
    by_cases hva : isValidOidString aid
    · by_cases hemp : v.isEmpty
      · rw [updateApplicationStatus]; simp [hva, truthy, hemp]
      · rw [updateApplicationStatus]; simp [hva, truthy, hemp, hv]
    · rw [updateApplicationStatus]; simp [hva]
  · intro hv hva hex
    have hemp : v.isEmpty = false := by
      simp only [validStatuses, List.mem_cons, List.mem_singleton] at hv
      rcases hv with rfl | rfl | rfl | rfl | rfl | h
      · rfl
      · rfl
      · rfl
      · rfl
      · rfl
      · cases h
    rw [updateApplicationStatus]
    simp only [hva, truthy, hemp, Bool.not_false, if_true, Option.getD_some]
    have hcont : validStatuses.contains v = true := by simpa using hv
    simp only [hcont, Bool.not_true, Bool.false_eq_true, if_false]
    have hany : s.applications.any (fun a => a.id == aid) = true := by
      rcases hex with ⟨a0, hmem, hid⟩
      exact List.any_eq_true.mpr ⟨a0, hmem, by simp [hid]⟩
    simp only [hany, if_true]
    refine ⟨by trivial, ?_⟩
    intro a ha hid
    rcases List.mem_map.mp ha with ⟨a0, _, rfl⟩
    by_cases hc : (a0.id == aid) = true
    · simp [hc]
    · exfalso
      simp only [Bool.not_eq_true] at hc
      simp only [hc, Bool.false_eq_true, if_false] at hid
      exact absurd hid (by simpa using hc)

/-- C9 witness: the theorem applied twice over `jobStore`: "Bogus" is
rejected with the store unchanged, and "Reviewed" overwrites the stored
status of the existing application. -/
theorem updateApplicationStatus_enum_witness :
    ((updateApplicationStatus jobStore oidApp (some "Bogus")).resp.status = 400 ∧
     (updateApplicationStatus jobStore oidApp (some "Bogus")).store = jobStore) ∧
    ((updateApplicationStatus jobStore oidApp (some "Reviewed")).resp.status = 200 ∧
     ∀ a ∈ (updateApplicationStatus jobStore oidApp (some "Reviewed")).store.applications,
       a.id = oidApp → a.status = "Reviewed") :=
  ⟨(updateApplicationStatus_enum_gate jobStore oidApp "Bogus").1 (by decide),
   (updateApplicationStatus_enum_gate jobStore oidApp "Reviewed").2
     (by decide) (by decide) (by decide)⟩

/-- C10: `createCompany` rejects with BadRequest 400 (store unchanged) any
request whose body lacks a truthy `userId`; yet for every request that
results in a created company (status 201), the persisted document's owner
list is exactly the authenticated caller's id — the body's `userId` value
is never used. -/
theorem createCompany_body_userId_required_but_ignored (s : Store)
    (caller fresh : String) (r : CreateCompanyReq) :
    (truthy r.userId = false →
      (createCompany s caller fresh r).resp.status = 400 ∧
      (createCompany s caller fresh r).store = s) ∧
    ((createCompany s caller fresh r).resp.status = 201 →
      ∃ co, (createCompany s caller fresh r).store.companies = s.companies ++ [co] ∧
        co.userId = [caller]) := by
  constructor
  · intro hu
    rw [createCompany]
    simp [hu]
  · intro h
    by_cases hpc : (truthy r.name && truthy r.description && truthy r.website &&
        truthy r.location && truthy r.userId) = true
    · by_cases hdup : s.companies.any (fun c => c.name == r.name.getD "") = true
      · rw [createCompany] at h; simp [hpc, hdup] at h
      · by_cases hcv : isValidOidString caller
        · rw [createCompany] at h ⊢
          simp only [hpc, hdup, hcv, Bool.not_true, Bool.not_false, Bool.false_eq_true,
            if_false, if_true] at h ⊢
          exact ⟨_, rfl, rfl⟩
        · rw [createCompany] at h; simp [hpc, hdup, hcv] at h
    · rw [createCompany] at h; simp [hpc] at h

/-- C10 witness: the theorem applied twice: a body without `userId` is
rejected with the store unchanged, and a creating request persists the
caller `oidUser` as owner even though the body carried a different id. -/
theorem createCompany_userId_witness :
    ((createCompany userStore oidUser oidFresh noUserIdReq).resp.status = 400 ∧
     (createCompany userStore oidUser oidFresh noUserIdReq).store = userStore) ∧
    (∃ co, (createCompany userStore oidUser oidFresh companyReq).store.companies =
        userStore.companies ++ [co] ∧ co.userId = [oidUser]) :=
  ⟨(createCompany_body_userId_required_but_ignored userStore oidUser oidFresh
      noUserIdReq).1 (by decide),
   (createCompany_body_userId_required_but_ignored userStore oidUser oidFresh
      companyReq).2 (by decide)⟩
